import Mathlib

/-!
Shallow embedding of `ea-fc25-scraper` (src/ea_fc25_scraper/index.py) and
verification of its specification claims.

The program paginates an HTTP JSON API: `fetch_all_pages` loops over offsets
in steps of 100, resolving each page either from an on-disk cache
(`cache/page_{offset}.json`, read when `skip_cache` is false and the file
exists) or from the network (`fetch_page`, whose result is persisted to the
cache file before the page's items are appended to the accumulator).  The
loop stops when a page has fewer than 100 items, or — with a caught
`aiohttp.ClientError` — breaks early, returning the partial accumulator.
`main` then writes the accumulated items as indented JSON (`save_json`) and
gzips that file (`compress_json`); `decompress_json` is the inverse.

Modelling choices:
* JSON values are the inductive `Json`; machine-level details (floats) that
  the program never interprets are not needed by any claim.
* The filesystem cache is a map `Nat → Option FileData`; a cache file either
  holds the JSON value it was written with, or is `invalid` (unparseable).
* The network and the local filesystem's willingness to accept writes are an
  environment `Env`; `fetch_page env offset` is the HTTP GET.
* Python exceptions are the `Except RunError` error channel: only
  `aiohttp.ClientError` is caught (the `fetchError` constructor); `KeyError`,
  `TypeError`, JSON decode errors and I/O errors propagate and abort the run.
* The `while True` loop is fuel-indexed recursion; `none` means the fuel ran
  out, `some` is the program's actual outcome.
* The gzip library is modelled by its contract (`GzipModel`): a compression
  / decompression pair with the documented round-trip property.
-/

namespace EAFC

/-- JSON values, as produced by `json.load` / consumed by `json.dump`. -/
inductive Json where
  | null : Json
  | bool (b : Bool) : Json
  | num (n : Int) : Json
  | str (s : String) : Json
  | arr (elems : List Json) : Json
  | obj (fields : List (String × Json)) : Json

mutual

/-- Boolean equality on JSON values (the derive handler does not support
this nested inductive, so it is written out). -/
def beqJson : Json → Json → Bool
  | Json.null, Json.null => true
  | Json.bool a, Json.bool b => a == b
  | Json.num a, Json.num b => a == b
  | Json.str a, Json.str b => a == b
  | Json.arr xs, Json.arr ys => beqJsonList xs ys
  | Json.obj fs, Json.obj gs => beqJsonFields fs gs
  | _, _ => false

/-- Boolean equality on lists of JSON values. -/
def beqJsonList : List Json → List Json → Bool
  | [], [] => true
  | x :: xs, y :: ys => beqJson x y && beqJsonList xs ys
  | _, _ => false

/-- Boolean equality on JSON object field lists. -/
def beqJsonFields : List (String × Json) → List (String × Json) → Bool
  | [], [] => true
  | (k, v) :: fs, (l, w) :: gs => k == l && beqJson v w && beqJsonFields fs gs
  | _, _ => false

end

mutual

theorem beqJson_iff : ∀ a b : Json, beqJson a b = true ↔ a = b
  | Json.null, b => by cases b <;> simp [beqJson]
  | Json.bool a, b => by cases b <;> simp [beqJson]
  | Json.num a, b => by cases b <;> simp [beqJson]
  | Json.str a, b => by cases b <;> simp [beqJson]
  | Json.arr xs, b => by
    cases b <;> simp [beqJson]
    exact beqJsonList_iff xs _
  | Json.obj fs, b => by
    cases b <;> simp [beqJson]
    exact beqJsonFields_iff fs _

theorem beqJsonList_iff : ∀ xs ys : List Json, beqJsonList xs ys = true ↔ xs = ys
  | [], ys => by cases ys <;> simp [beqJsonList]
  | x :: xs, ys => by
    cases ys with
    | nil => simp [beqJsonList]
    | cons y ys =>
      simp [beqJsonList, Bool.and_eq_true, beqJson_iff x y, beqJsonList_iff xs ys]

theorem beqJsonFields_iff :
    ∀ fs gs : List (String × Json), beqJsonFields fs gs = true ↔ fs = gs
  | [], gs => by cases gs <;> simp [beqJsonFields]
  | (k, v) :: fs, gs => by
    cases gs with
    | nil => simp [beqJsonFields]
    | cons g gs =>
      obtain ⟨l, w⟩ := g
      simp [beqJsonFields, Bool.and_eq_true, beqJson_iff v w,
        beqJsonFields_iff fs gs, and_assoc]

end

instance : DecidableEq Json := fun a b => decidable_of_iff _ (beqJson_iff a b)

/-- A server page with the given item list: the JSON object
`{"items": [...]}` that the API returns. -/
def mkPage (items : List Json) : Json :=
  Json.obj [("items", Json.arr items)]

/-- Lookup of a key in a JSON object's field list (Python `d[key]`). -/
def lookupField : List (String × Json) → String → Option Json
  | [], _ => none
  | (k, v) :: fs, key => if k = key then some v else lookupField fs key

/-- Exceptions of the run that no handler in the program catches. -/
inductive RunError where
  /-- Python `KeyError`: `page_data["items"]` on an object without the key. -/
  | keyError : RunError
  /-- Python `TypeError`: indexing a non-object, or `len`/`extend` on a
  non-sequence `items` value. -/
  | typeError : RunError
  /-- Python `json.JSONDecodeError`: unparseable cache file or server body. -/
  | jsonDecodeError : RunError
  /-- Python `OSError`: a filesystem write failed. -/
  | ioError : RunError
deriving DecidableEq

/-- `page_data["items"]` followed by `len`/`extend`: the items of a page, or
the uncaught exception this access raises. -/
def getItems : Json → Except RunError (List Json)
  | Json.obj fields =>
    match lookupField fields "items" with
    | some (Json.arr xs) => Except.ok xs
    | some _ => Except.error RunError.typeError
    | none => Except.error RunError.keyError
  | _ => Except.error RunError.typeError

/-- Contents of one cache file `cache/page_{offset}.json`. -/
inductive FileData where
  /-- The file parses to this JSON value. -/
  | json (j : Json) : FileData
  /-- The file exists but its contents are not valid JSON. -/
  | invalid : FileData
deriving DecidableEq

/-- The on-disk page cache: offset of a page to the contents of its cache
file, `none` when `os.path.exists` is false. -/
abbrev Cache := Nat → Option FileData

/-- A cache directory with no files. -/
def emptyCache : Cache := fun _ => none

/-- What one `GET {base_url}?locale=en&limit=100&offset=N` yields. -/
inductive ServerResp where
  /-- 2xx status and a body parsing to this JSON value. -/
  | ok (page : Json) : ServerResp
  /-- `aiohttp.ClientError` (non-2xx raised by `raise_for_status`,
  connection failure, content-type error), with its message. -/
  | clientError (msg : String) : ServerResp
  /-- 2xx status but a body that is not valid JSON: `response.json()`
  raises a decode error, which is not an `aiohttp.ClientError`. -/
  | badJson : ServerResp
deriving DecidableEq

/-- The run's environment: the server's response per offset, and whether the
filesystem accepts the cache-file write per offset and the output write. -/
structure Env where
  server : Nat → ServerResp
  cacheWriteOk : Nat → Bool
  outputWriteOk : Bool

/-- `fetch_page(session, offset)`: one HTTP GET, the parsed body or the
error it raises. -/
def fetch_page (env : Env) (offset : Nat) : ServerResp :=
  env.server offset

/-- Result of resolving one page inside the loop body. -/
inductive ResolveResult where
  /-- The page value, the cache state afterwards, and whether a network
  fetch produced it (`false` = cache read). -/
  | page (p : Json) (cache : Cache) (networkCall : Bool) : ResolveResult
  /-- A caught `aiohttp.ClientError` (the loop `break`s). -/
  | fetchError (msg : String) : ResolveResult
  /-- An uncaught exception (the whole run aborts). -/
  | fatal (e : RunError) : ResolveResult

/-- The `try` block of the network branch: `fetch_page`, then
`os.makedirs` + write of the cache file — the write happens before the
caller ever sees the page. Only `aiohttp.ClientError` is caught by the
caller; a filesystem error or a JSON decode error is fatal. -/
def networkFetch (env : Env) (cache : Cache) (offset : Nat) : ResolveResult :=
  match fetch_page env offset with
  | ServerResp.ok page =>
      if env.cacheWriteOk offset then
        ResolveResult.page page
          (Function.update cache offset (some (FileData.json page))) true
      else ResolveResult.fatal RunError.ioError
  | ServerResp.clientError msg => ResolveResult.fetchError msg
  | ServerResp.badJson => ResolveResult.fatal RunError.jsonDecodeError

/-- One loop iteration's page resolution:
`if not skip_cache and os.path.exists(cache_file): json.load(...)` —
reading an unparseable cache file raises an uncaught decode error —
`else:` the `try`/`except aiohttp.ClientError` network branch. -/
def resolvePage (env : Env) (skipCache : Bool) (cache : Cache) (offset : Nat) :
    ResolveResult :=
  match skipCache, cache offset with
  | false, some (FileData.json j) => ResolveResult.page j cache false
  | false, some FileData.invalid => ResolveResult.fatal RunError.jsonDecodeError
  | _, _ => networkFetch env cache offset

/-- Outcome of `fetch_all_pages` when it returns (rather than raising). -/
structure FetchOutcome where
  /-- The returned `all_data` accumulator. -/
  items : List Json
  /-- The cache directory afterwards. -/
  cache : Cache
  /-- Offsets whose page was obtained by a successful network fetch, in
  order (instrumentation: Python's calls to `fetch_page` that returned). -/
  calls : List Nat
  /-- `some n` when the loop broke at offset `n` on a caught
  `aiohttp.ClientError` (the printed error report); `none` on a short page. -/
  aborted : Option Nat

/-- The `while True` loop of `fetch_all_pages`, fuel-indexed: `none` means
the fuel ran out, `some (Except.error e)` an uncaught exception, and
`some (Except.ok o)` a normal return (including the caught-error break). -/
def fetchPages (env : Env) (skipCache : Bool) :
    Nat → Nat → List Json → Cache → List Nat →
    Option (Except RunError FetchOutcome)
  | 0, _, _, _, _ => none
  | fuel + 1, offset, acc, cache, calls =>
    match resolvePage env skipCache cache offset with
    | ResolveResult.fatal e => some (Except.error e)
    | ResolveResult.fetchError _ =>
        some (Except.ok ⟨acc, cache, calls, some offset⟩)
    | ResolveResult.page p cache2 net =>
        match getItems p with
        | Except.error e => some (Except.error e)
        | Except.ok items =>
            if items.length < 100 then
              some (Except.ok ⟨acc ++ items, cache2,
                if net then calls ++ [offset] else calls, none⟩)
            else
              fetchPages env skipCache fuel (offset + 100) (acc ++ items)
                cache2 (if net then calls ++ [offset] else calls)

/-- `fetch_all_pages(skip_cache)`: the loop from offset 0 with an empty
accumulator, over the initial cache directory `c0`. -/
def fetch_all_pages (env : Env) (skipCache : Bool) (c0 : Cache) (fuel : Nat) :
    Option (Except RunError FetchOutcome) :=
  fetchPages env skipCache fuel 0 [] c0 []

/-! ## The serializer: `json.dump(data, f, indent=2)`

`save_json` writes the item list as indented JSON with Python's defaults:
`ensure_ascii=True` (so every output byte is ASCII — files are byte lists of
the codes), separators `(",", ": ")` when an indent is given, two-space
indentation, no trailing newline. -/

/-- `n` ASCII space bytes. -/
def spaces (n : Nat) : List Nat := List.replicate n 32

/-- The bytes of an ASCII string literal. -/
def asciiStr (s : String) : List Nat := s.data.map Char.toNat

/-- Lowercase hexadecimal digit byte, as in Python's `\uXXXX` escapes. -/
def hexDigit (n : Nat) : Nat := if n < 10 then 48 + n else 87 + n

/-- JSON string escaping of one character with `ensure_ascii=True`: the
two-character shortcuts, `\uXXXX` for other control or non-ASCII
characters (a surrogate pair beyond the BMP), the character itself for
printable ASCII. -/
def escapeChar (c : Char) : List Nat :=
  let n := c.toNat
  if n = 34 then [92, 34]
  else if n = 92 then [92, 92]
  else if n = 8 then [92, 98]
  else if n = 9 then [92, 116]
  else if n = 10 then [92, 110]
  else if n = 12 then [92, 102]
  else if n = 13 then [92, 114]
  else if 32 ≤ n ∧ n ≤ 126 then [n]
  else if n < 65536 then
    [92, 117, hexDigit (n / 4096 % 16), hexDigit (n / 256 % 16),
      hexDigit (n / 16 % 16), hexDigit (n % 16)]
  else
    let m := n - 65536
    let hi := 55296 + m / 1024
    let lo := 56320 + m % 1024
    [92, 117, hexDigit (hi / 4096 % 16), hexDigit (hi / 256 % 16),
      hexDigit (hi / 16 % 16), hexDigit (hi % 16),
      92, 117, hexDigit (lo / 4096 % 16), hexDigit (lo / 256 % 16),
      hexDigit (lo / 16 % 16), hexDigit (lo % 16)]

/-- A JSON string literal's bytes: quote, escaped characters, quote. -/
def dumpString (s : String) : List Nat :=
  34 :: (s.data.map escapeChar).flatten ++ [34]

/-- An integer's decimal bytes, as Python prints it. -/
def dumpInt (n : Int) : List Nat :=
  if n < 0 then 45 :: (Nat.toDigits 10 n.natAbs).map Char.toNat
  else (Nat.toDigits 10 n.natAbs).map Char.toNat

mutual

/-- The bytes `json.dump(j, f, indent=2)` writes when the surrounding
structure sits at indentation `level`. An empty array or object prints
with no inner newline; otherwise elements go one per line, indented two
deeper, separated by `","`, with the closing bracket back at `level`. -/
def dumpJson (level : Nat) : Json → List Nat
  | Json.null => asciiStr "null"
  | Json.bool b => if b then asciiStr "true" else asciiStr "false"
  | Json.num n => dumpInt n
  | Json.str s => dumpString s
  | Json.arr [] => [91, 93]
  | Json.arr (x :: xs) =>
      [91, 10] ++ dumpElems level (x :: xs) ++ [10] ++ spaces level ++ [93]
  | Json.obj [] => [123, 125]
  | Json.obj (f :: fs) =>
      [123, 10] ++ dumpFields level (f :: fs) ++ [10] ++ spaces level ++ [125]

/-- The comma-and-newline separated lines of an array body. -/
def dumpElems (level : Nat) : List Json → List Nat
  | [] => []
  | [x] => spaces (level + 2) ++ dumpJson (level + 2) x
  | x :: y :: ys =>
      spaces (level + 2) ++ dumpJson (level + 2) x ++ [44, 10] ++
        dumpElems level (y :: ys)

/-- The comma-and-newline separated lines of an object body, each line
`"key": value`. -/
def dumpFields (level : Nat) : List (String × Json) → List Nat
  | [] => []
  | [(k, v)] => spaces (level + 2) ++ dumpString k ++ [58, 32] ++ dumpJson (level + 2) v
  | (k, v) :: f :: fs =>
      spaces (level + 2) ++ dumpString k ++ [58, 32] ++ dumpJson (level + 2) v ++
        [44, 10] ++ dumpFields level (f :: fs)

end

/-- `save_json(data, filename)`: the bytes written to the output file —
the item list serialized as an indented JSON array at top level.
The write overwrites the file unconditionally. -/
def save_json (data : List Json) : List Nat :=
  dumpJson 0 (Json.arr data)

/-! ## gzip compression: `compress_json` / `decompress_json`

Both functions pipe a file through `writelines`, i.e. they iterate the
input as newline-terminated chunks and write the chunks in order; the
gzip codec itself is the Python `gzip` library, modelled by its contract:
a compress/decompress pair with the round-trip property. -/

/-- File iteration (`for line in f`): split a byte stream into chunks,
each ending right after a `\n` byte (the last chunk possibly without
one). `splitLinesGo acc bs` carries the current chunk, reversed. -/
def splitLinesGo : List Nat → List Nat → List (List Nat)
  | acc, [] => if acc = [] then [] else [acc.reverse]
  | acc, b :: bs =>
      if b = 10 then (b :: acc).reverse :: splitLinesGo [] bs
      else splitLinesGo (b :: acc) bs

/-- The newline-terminated chunks of a byte stream. -/
def splitLines (bs : List Nat) : List (List Nat) := splitLinesGo [] bs

/-- The gzip library, by its contract: `compress`/`decompress` on raw
bytes, with decompression inverting compression. -/
structure GzipModel where
  compress : List Nat → List Nat
  decompress : List Nat → List Nat
  inv : ∀ bs, decompress (compress bs) = bs

/-- A trivial concrete codec satisfying the gzip contract, used to
instantiate witnesses. -/
def gzipId : GzipModel where
  compress := fun bs => bs
  decompress := fun bs => bs
  inv := fun _ => rfl

/-- `compress_json(input_file, output_file)`: read `input_file` as binary,
iterate it as chunks (`f_out.writelines(f_in)`), and write the chunks into
a gzip stream — the output file holds the compression of the chunk
concatenation. -/
def compress_json (gz : GzipModel) (input : List Nat) : List Nat :=
  gz.compress (splitLines input).flatten

/-- `decompress_json(input_file, output_file)`: open `input_file` as a gzip
stream, iterate the decompressed bytes as chunks, and write them to the
output file. -/
def decompress_json (gz : GzipModel) (input : List Nat) : List Nat :=
  (splitLines (gz.decompress input)).flatten

/-! ## `main`: the pipeline -/

/-- Outcome of a completed `main(skip_cache)` run. -/
structure MainOutcome where
  /-- The accumulated item list `fetch_all_pages` returned. -/
  items : List Json
  /-- The cache directory after the run. -/
  cache : Cache
  /-- The successful network-fetch offsets, in order. -/
  calls : List Nat
  /-- The offset of a caught fetch error, if the loop broke on one. -/
  aborted : Option Nat
  /-- The bytes of `players_data.json`. -/
  outputBytes : List Nat
  /-- The bytes of `players_data.json.gz`. -/
  compressedBytes : List Nat

/-- `main(skip_cache)`: run `fetch_all_pages`, then unconditionally
`save_json` the result (whether or not the loop aborted on a fetch error)
and `compress_json` the saved file. An uncaught exception from the loop or
a failing output write terminates the run with no outputs. -/
def main (gz : GzipModel) (env : Env) (skipCache : Bool) (c0 : Cache)
    (fuel : Nat) : Option (Except RunError MainOutcome) :=
  match fetch_all_pages env skipCache c0 fuel with
  | none => none
  | some (Except.error e) => some (Except.error e)
  | some (Except.ok o) =>
      if env.outputWriteOk then
        some (Except.ok ⟨o.items, o.cache, o.calls, o.aborted, save_json o.items,
          compress_json gz (save_json o.items)⟩)
      else some (Except.error RunError.ioError)

/-! ## Step characterizations of the page resolution -/

theorem resolve_hit (env : Env) (cache : Cache) (offset : Nat) (p : Json)
    (hc : cache offset = some (FileData.json p)) :
    resolvePage env false cache offset = ResolveResult.page p cache false := by
  simp only [resolvePage, hc]

theorem resolve_invalid (env : Env) (cache : Cache) (offset : Nat)
    (hc : cache offset = some FileData.invalid) :
    resolvePage env false cache offset =
      ResolveResult.fatal RunError.jsonDecodeError := by
  simp only [resolvePage, hc]

theorem resolve_miss (env : Env) (cache : Cache) (offset : Nat)
    (hc : cache offset = none) :
    resolvePage env false cache offset = networkFetch env cache offset := by
  simp only [resolvePage, hc]

theorem resolve_skip (env : Env) (cache : Cache) (offset : Nat) :
    resolvePage env true cache offset = networkFetch env cache offset := by
  cases hc : cache offset with
  | none => simp only [resolvePage, hc]
  | some fd => cases fd <;> simp only [resolvePage, hc]

theorem networkFetch_ok (env : Env) (cache : Cache) (offset : Nat) (p : Json)
    (hs : env.server offset = ServerResp.ok p)
    (hw : env.cacheWriteOk offset = true) :
    networkFetch env cache offset =
      ResolveResult.page p
        (Function.update cache offset (some (FileData.json p))) true := by
  simp [networkFetch, fetch_page, hs, hw]

theorem networkFetch_writeFail (env : Env) (cache : Cache) (offset : Nat)
    (p : Json) (hs : env.server offset = ServerResp.ok p)
    (hw : env.cacheWriteOk offset = false) :
    networkFetch env cache offset = ResolveResult.fatal RunError.ioError := by
  simp [networkFetch, fetch_page, hs, hw]

theorem networkFetch_clientError (env : Env) (cache : Cache) (offset : Nat)
    (msg : String) (hs : env.server offset = ServerResp.clientError msg) :
    networkFetch env cache offset = ResolveResult.fetchError msg := by
  simp [networkFetch, fetch_page, hs]

theorem networkFetch_badJson (env : Env) (cache : Cache) (offset : Nat)
    (hs : env.server offset = ServerResp.badJson) :
    networkFetch env cache offset =
      ResolveResult.fatal RunError.jsonDecodeError := by
  simp [networkFetch, fetch_page, hs]

theorem networkFetch_page_inv (env : Env) (cache : Cache) (offset : Nat)
    (p : Json) (c2 : Cache) (net : Bool)
    (h : networkFetch env cache offset = ResolveResult.page p c2 net) :
    env.server offset = ServerResp.ok p ∧ env.cacheWriteOk offset = true ∧
      c2 = Function.update cache offset (some (FileData.json p)) ∧
      net = true := by
  unfold networkFetch fetch_page at h
  cases hs : env.server offset with
  | ok q =>
    rw [hs] at h
    cases hw : env.cacheWriteOk offset with
    | false => simp [hw] at h
    | true =>
      simp only [hw, if_true] at h
      cases h
      exact ⟨rfl, rfl, rfl, rfl⟩
  | clientError msg => rw [hs] at h; cases h
  | badJson => rw [hs] at h; cases h

/-- Inversion of a successful page resolution: either a cache hit (cache
unchanged, no network) or a network fetch (entry written, and — when the
cache was consulted at all — the file did not exist). -/
theorem resolvePage_page_inv (env : Env) (skip : Bool) (cache : Cache)
    (offset : Nat) (p : Json) (c2 : Cache) (net : Bool)
    (h : resolvePage env skip cache offset = ResolveResult.page p c2 net) :
    (skip = false ∧ cache offset = some (FileData.json p) ∧ c2 = cache ∧
        net = false) ∨
    (env.server offset = ServerResp.ok p ∧ env.cacheWriteOk offset = true ∧
        c2 = Function.update cache offset (some (FileData.json p)) ∧
        net = true ∧ (skip = false → cache offset = none)) := by
  cases skip with
  | true =>
    rw [resolve_skip] at h
    exact Or.inr (by
      obtain ⟨h1, h2, h3, h4⟩ := networkFetch_page_inv env cache offset p c2 net h
      exact ⟨h1, h2, h3, h4, by intro hx; cases hx⟩)
  | false =>
    cases hc : cache offset with
    | none =>
      rw [resolve_miss env cache offset hc] at h
      obtain ⟨h1, h2, h3, h4⟩ := networkFetch_page_inv env cache offset p c2 net h
      exact Or.inr ⟨h1, h2, h3, h4, fun _ => rfl⟩
    | some fd =>
      cases fd with
      | json j =>
        rw [resolve_hit env cache offset j hc] at h
        cases h
        exact Or.inl ⟨rfl, rfl, rfl, rfl⟩
      | invalid => rw [resolve_invalid env cache offset hc] at h; cases h

/-- Inversion of a caught fetch error: the server failed with a client
error at this offset, and — when the cache was consulted — no cache file
existed for it. The cache is untouched. -/
theorem resolvePage_fetchError_inv (env : Env) (skip : Bool) (cache : Cache)
    (offset : Nat) (msg : String)
    (h : resolvePage env skip cache offset = ResolveResult.fetchError msg) :
    env.server offset = ServerResp.clientError msg ∧
      (skip = false → cache offset = none) := by
  have hnf : networkFetch env cache offset = ResolveResult.fetchError msg ∧
      (skip = false → cache offset = none) := by
    cases skip with
    | true => exact ⟨by rwa [resolve_skip] at h, by intro hx; cases hx⟩
    | false =>
      cases hc : cache offset with
      | none => exact ⟨by rwa [resolve_miss env cache offset hc] at h, fun _ => rfl⟩
      | some fd =>
        cases fd with
        | json j => rw [resolve_hit env cache offset j hc] at h; cases h
        | invalid => rw [resolve_invalid env cache offset hc] at h; cases h
  refine ⟨?_, hnf.2⟩
  have h2 := hnf.1
  unfold networkFetch fetch_page at h2
  cases hs : env.server offset with
  | ok q =>
    rw [hs] at h2
    cases hw : env.cacheWriteOk offset <;> simp [hw] at h2
  | clientError m => rw [hs] at h2; cases h2; rfl
  | badJson => rw [hs] at h2; cases h2

/-! ## File iteration is byte-faithful -/

theorem splitLinesGo_flatten (bs : List Nat) :
    ∀ acc, (splitLinesGo acc bs).flatten = acc.reverse ++ bs := by
  induction bs with
  | nil =>
    intro acc
    by_cases ha : acc = []
    · simp [splitLinesGo, ha]
    · simp [splitLinesGo, ha]
  | cons b bs ih =>
    intro acc
    by_cases hb : b = 10
    · simp [splitLinesGo, hb, ih]
    · rw [splitLinesGo, if_neg hb, ih]
      simp

/-- Iterating a file as chunks and concatenating the chunks reproduces the
file's bytes: `writelines` over a file iterator is byte-faithful. -/
theorem splitLines_flatten (bs : List Nat) : (splitLines bs).flatten = bs := by
  simp [splitLines, splitLinesGo_flatten]

/-! ## One-step unfoldings of the loop -/

theorem fetchPages_step_page (env : Env) (skip : Bool) (n offset : Nat)
    (acc : List Json) (cache : Cache) (calls : List Nat) (p : Json)
    (cache2 : Cache) (net : Bool)
    (hr : resolvePage env skip cache offset = ResolveResult.page p cache2 net) :
    fetchPages env skip (n + 1) offset acc cache calls =
      match getItems p with
      | Except.error e => some (Except.error e)
      | Except.ok items =>
          if items.length < 100 then
            some (Except.ok ⟨acc ++ items, cache2,
              if net then calls ++ [offset] else calls, none⟩)
          else
            fetchPages env skip n (offset + 100) (acc ++ items) cache2
              (if net then calls ++ [offset] else calls) := by
  rw [fetchPages, hr]

theorem fetchPages_step_items (env : Env) (skip : Bool) (n offset : Nat)
    (acc : List Json) (cache : Cache) (calls : List Nat) (p : Json)
    (cache2 : Cache) (net : Bool) (items : List Json)
    (hr : resolvePage env skip cache offset = ResolveResult.page p cache2 net)
    (hg : getItems p = Except.ok items) :
    fetchPages env skip (n + 1) offset acc cache calls =
      if items.length < 100 then
        some (Except.ok ⟨acc ++ items, cache2,
          if net then calls ++ [offset] else calls, none⟩)
      else
        fetchPages env skip n (offset + 100) (acc ++ items) cache2
          (if net then calls ++ [offset] else calls) := by
  rw [fetchPages_step_page env skip n offset acc cache calls p cache2 net hr, hg]

theorem fetchPages_step_getItemsFail (env : Env) (skip : Bool) (n offset : Nat)
    (acc : List Json) (cache : Cache) (calls : List Nat) (p : Json)
    (cache2 : Cache) (net : Bool) (e : RunError)
    (hr : resolvePage env skip cache offset = ResolveResult.page p cache2 net)
    (hg : getItems p = Except.error e) :
    fetchPages env skip (n + 1) offset acc cache calls =
      some (Except.error e) := by
  rw [fetchPages_step_page env skip n offset acc cache calls p cache2 net hr, hg]

theorem fetchPages_step_fetchError (env : Env) (skip : Bool) (n offset : Nat)
    (acc : List Json) (cache : Cache) (calls : List Nat) (msg : String)
    (hr : resolvePage env skip cache offset = ResolveResult.fetchError msg) :
    fetchPages env skip (n + 1) offset acc cache calls =
      some (Except.ok ⟨acc, cache, calls, some offset⟩) := by
  rw [fetchPages, hr]

theorem fetchPages_step_fatal (env : Env) (skip : Bool) (n offset : Nat)
    (acc : List Json) (cache : Cache) (calls : List Nat) (e : RunError)
    (hr : resolvePage env skip cache offset = ResolveResult.fatal e) :
    fetchPages env skip (n + 1) offset acc cache calls =
      some (Except.error e) := by
  rw [fetchPages, hr]

/-! ## Loop invariants -/

/-- The loop only appends to the network-calls log. -/
theorem fetchPages_calls_extend (env : Env) (skip : Bool) :
    ∀ fuel offset acc cache calls o,
      fetchPages env skip fuel offset acc cache calls = some (Except.ok o) →
      ∃ ext, o.calls = calls ++ ext := by
  intro fuel
  induction fuel with
  | zero => intro offset acc cache calls o h; simp [fetchPages] at h
  | succ n ih =>
    intro offset acc cache calls o h
    cases hr : resolvePage env skip cache offset with
    | fatal e => rw [fetchPages_step_fatal env skip n offset acc cache calls e hr] at h; simp at h
    | fetchError msg =>
      rw [fetchPages_step_fetchError env skip n offset acc cache calls msg hr] at h
      simp only [Option.some.injEq, Except.ok.injEq] at h
      subst h
      exact ⟨[], by simp⟩
    | page p cache2 net =>
      cases hg : getItems p with
      | error e =>
        rw [fetchPages_step_getItemsFail env skip n offset acc cache calls
          p cache2 net e hr hg] at h
        simp at h
      | ok items =>
        rw [fetchPages_step_items env skip n offset acc cache calls
          p cache2 net items hr hg] at h
        by_cases hl : items.length < 100
        · rw [if_pos hl] at h
          simp only [Option.some.injEq, Except.ok.injEq] at h
          subst h
          cases net
          · exact ⟨[], by simp⟩
          · exact ⟨[offset], by simp⟩
        · rw [if_neg hl] at h
          obtain ⟨ext2, hext⟩ := ih (offset + 100) (acc ++ items) cache2
            (if net then calls ++ [offset] else calls) o h
          cases net
          · exact ⟨ext2, by simpa using hext⟩
          · exact ⟨[offset] ++ ext2, by simpa using hext⟩

/-- How the loop changes the cache directory: each file is either left
exactly as it was, or holds the raw page the server returned for that
offset, written during a successful network fetch there (recorded in the
calls log) — and, when the cache is enabled, written only where no file
existed before. -/
theorem fetchPages_cache_master (env : Env) (skip : Bool) :
    ∀ fuel offset acc cache calls o,
      fetchPages env skip fuel offset acc cache calls = some (Except.ok o) →
      ∀ k, o.cache k = cache k ∨
        (∃ p, o.cache k = some (FileData.json p) ∧
          env.server k = ServerResp.ok p ∧ k ∈ o.calls ∧ offset ≤ k ∧
          (skip = false → cache k = none)) := by
  intro fuel
  induction fuel with
  | zero => intro offset acc cache calls o h; simp [fetchPages] at h
  | succ n ih =>
    intro offset acc cache calls o h k
    cases hr : resolvePage env skip cache offset with
    | fatal e =>
      rw [fetchPages_step_fatal env skip n offset acc cache calls e hr] at h
      simp at h
    | fetchError msg =>
      rw [fetchPages_step_fetchError env skip n offset acc cache calls msg hr] at h
      simp only [Option.some.injEq, Except.ok.injEq] at h
      subst h
      exact Or.inl rfl
    | page p cache2 net =>
      cases hg : getItems p with
      | error e =>
        rw [fetchPages_step_getItemsFail env skip n offset acc cache calls
          p cache2 net e hr hg] at h
        simp at h
      | ok items =>
        rw [fetchPages_step_items env skip n offset acc cache calls
          p cache2 net items hr hg] at h
        rcases resolvePage_page_inv env skip cache offset p cache2 net hr with
          ⟨hskip, hhit, hceq, hneteq⟩ | ⟨hs, hw, hceq, hneteq, hmiss⟩
        · subst hceq; subst hneteq
          simp only [Bool.false_eq_true, if_false] at h
          by_cases hl : items.length < 100
          · rw [if_pos hl] at h
            simp only [Option.some.injEq, Except.ok.injEq] at h
            subst h
            exact Or.inl rfl
          · rw [if_neg hl] at h
            rcases ih (offset + 100) (acc ++ items) cache2 calls o h k with
              h1 | ⟨q, hq1, hq2, hq3, hq4, hq5⟩
            · exact Or.inl h1
            · exact Or.inr ⟨q, hq1, hq2, hq3, by omega, hq5⟩
        · subst hceq; subst hneteq
          simp only [if_true] at h
          by_cases hl : items.length < 100
          · rw [if_pos hl] at h
            simp only [Option.some.injEq, Except.ok.injEq] at h
            subst h
            by_cases hk : k = offset
            · subst hk
              exact Or.inr ⟨p, by simp [Function.update_same], hs, by simp,
                le_refl k, hmiss⟩
            · exact Or.inl (Function.update_noteq hk _ _)
          · rw [if_neg hl] at h
            rcases ih (offset + 100) (acc ++ items)
              (Function.update cache offset (some (FileData.json p)))
              (calls ++ [offset]) o h k with h1 | ⟨q, hq1, hq2, hq3, hq4, hq5⟩
            · by_cases hk : k = offset
              · subst hk
                obtain ⟨ext, hext⟩ :=
                  fetchPages_calls_extend env skip n (k + 100) (acc ++ items)
                    (Function.update cache k (some (FileData.json p)))
                    (calls ++ [k]) o h
                refine Or.inr ⟨p, ?_, hs, ?_, le_refl k, hmiss⟩
                · rw [h1]; exact Function.update_same _ _ _
                · rw [hext]; simp
              · exact Or.inl (h1.trans (Function.update_noteq hk _ _))
            · have hk : k ≠ offset := by omega
              refine Or.inr ⟨q, hq1, hq2, hq3, by omega, fun hf => ?_⟩
              have := hq5 hf
              rwa [Function.update_noteq hk _ _] at this

/-- Cache files below the current offset are never touched again: the loop
only writes at the offsets it visits, which only grow. -/
theorem fetchPages_cache_lt (env : Env) (skip : Bool) (fuel offset : Nat)
    (acc : List Json) (cache : Cache) (calls : List Nat) (o : FetchOutcome)
    (h : fetchPages env skip fuel offset acc cache calls = some (Except.ok o))
    (k : Nat) (hk : k < offset) : o.cache k = cache k := by
  rcases fetchPages_cache_master env skip fuel offset acc cache calls o h k with
    h1 | ⟨q, _, _, _, hge, _⟩
  · exact h1
  · omega

/-- Every offset in the network-calls log has a cache file on disk when the
loop returns (given the files of the already-logged calls). -/
theorem fetchPages_calls_files (env : Env) (skip : Bool) :
    ∀ fuel offset acc cache calls o,
      fetchPages env skip fuel offset acc cache calls = some (Except.ok o) →
      (∀ k, k ∈ calls → (cache k).isSome) →
      ∀ k, k ∈ o.calls → (o.cache k).isSome := by
  intro fuel
  induction fuel with
  | zero => intro offset acc cache calls o h; simp [fetchPages] at h
  | succ n ih =>
    intro offset acc cache calls o h hpre k hk
    cases hr : resolvePage env skip cache offset with
    | fatal e =>
      rw [fetchPages_step_fatal env skip n offset acc cache calls e hr] at h
      simp at h
    | fetchError msg =>
      rw [fetchPages_step_fetchError env skip n offset acc cache calls msg hr] at h
      simp only [Option.some.injEq, Except.ok.injEq] at h
      subst h
      exact hpre k hk
    | page p cache2 net =>
      cases hg : getItems p with
      | error e =>
        rw [fetchPages_step_getItemsFail env skip n offset acc cache calls
          p cache2 net e hr hg] at h
        simp at h
      | ok items =>
        rw [fetchPages_step_items env skip n offset acc cache calls
          p cache2 net items hr hg] at h
        rcases resolvePage_page_inv env skip cache offset p cache2 net hr with
          ⟨hskip, hhit, hceq, hneteq⟩ | ⟨hs, hw, hceq, hneteq, hmiss⟩
        · subst hneteq
          simp only [Bool.false_eq_true, if_false] at h
          by_cases hl : items.length < 100
          · rw [if_pos hl] at h
            simp only [Option.some.injEq, Except.ok.injEq] at h
            subst h
            have : (cache k).isSome := hpre k hk
            rw [hceq]
            exact this
          · rw [if_neg hl] at h
            refine ih (offset + 100) (acc ++ items) cache2 calls o h ?_ k hk
            intro j hj
            rw [hceq]
            exact hpre j hj
        · subst hneteq
          simp only [if_true] at h
          have hpre2 : ∀ j, j ∈ calls ++ [offset] → ((Function.update cache
              offset (some (FileData.json p))) j).isSome := by
            intro j hj
            by_cases hjo : j = offset
            · subst hjo; simp [Function.update_same]
            · rw [Function.update_noteq hjo _ _]
              rcases List.mem_append.mp hj with hj1 | hj2
              · exact hpre j hj1
              · exact absurd (List.mem_singleton.mp hj2) hjo
          by_cases hl : items.length < 100
          · rw [if_pos hl] at h
            simp only [Option.some.injEq, Except.ok.injEq] at h
            subst h
            have := hpre2 k hk
            rwa [hceq]
          · rw [if_neg hl] at h
            rw [hceq] at h
            exact ih (offset + 100) (acc ++ items) _ (calls ++ [offset]) o h
              hpre2 k hk

/-- A run that broke on a caught fetch error at offset `n` never reached
past `n`, wrote no cache file at `n` (with cache enabled there was none to
begin with), and logged no successful network call at `n`. -/
theorem fetchPages_abort_inv (env : Env) (skip : Bool) :
    ∀ fuel offset acc cache calls o n,
      fetchPages env skip fuel offset acc cache calls = some (Except.ok o) →
      o.aborted = some n →
      offset ≤ n ∧ o.cache n = cache n ∧ (skip = false → cache n = none) ∧
        (n ∉ calls → n ∉ o.calls) := by
  intro fuel
  induction fuel with
  | zero => intro offset acc cache calls o n h; simp [fetchPages] at h
  | succ m ih =>
    intro offset acc cache calls o n h ha
    cases hr : resolvePage env skip cache offset with
    | fatal e =>
      rw [fetchPages_step_fatal env skip m offset acc cache calls e hr] at h
      simp at h
    | fetchError msg =>
      rw [fetchPages_step_fetchError env skip m offset acc cache calls msg hr] at h
      simp only [Option.some.injEq, Except.ok.injEq] at h
      subst h
      simp only [Option.some.injEq] at ha
      subst ha
      obtain ⟨hsrv, hnone⟩ := resolvePage_fetchError_inv env skip cache _ msg hr
      exact ⟨le_refl _, rfl, hnone, fun hn => hn⟩
    | page p cache2 net =>
      cases hg : getItems p with
      | error e =>
        rw [fetchPages_step_getItemsFail env skip m offset acc cache calls
          p cache2 net e hr hg] at h
        simp at h
      | ok items =>
        rw [fetchPages_step_items env skip m offset acc cache calls
          p cache2 net items hr hg] at h
        by_cases hl : items.length < 100
        · rw [if_pos hl] at h
          simp only [Option.some.injEq, Except.ok.injEq] at h
          subst h
          simp at ha
        · rw [if_neg hl] at h
          obtain ⟨h1, h2, h3, h4⟩ := ih (offset + 100) (acc ++ items) cache2
            (if net then calls ++ [offset] else calls) o n h ha
          have hno : n ≠ offset := by omega
          rcases resolvePage_page_inv env skip cache offset p cache2 net hr with
            ⟨hskip, hhit, hceq, hneteq⟩ | ⟨hs, hw, hceq, hneteq, hmiss⟩
          · subst hneteq
            refine ⟨by omega, by rw [h2, hceq], fun hf => ?_, fun hn => ?_⟩
            · have := h3 hf; rwa [hceq] at this
            · refine h4 ?_
              simpa using hn
          · subst hneteq
            refine ⟨by omega, ?_, fun hf => ?_, fun hn => ?_⟩
            · rw [h2, hceq, Function.update_noteq hno _ _]
            · have := h3 hf
              rwa [hceq, Function.update_noteq hno _ _] at this
            · refine h4 ?_
              simp only [if_true, List.mem_append, List.mem_singleton]
              rintro (hc | hc)
              · exact hn hc
              · exact hno hc

/-- Replaying a completed cache-enabled run over the cache it produced
yields the same items, the same cache, and the same abort status: every
page the first run fetched is now a cache hit holding the very page that
was fetched. -/
theorem fetchPages_replay (env : Env) :
    ∀ fuel offset acc cache calls o,
      fetchPages env false fuel offset acc cache calls = some (Except.ok o) →
      ∀ calls2, ∃ o2,
        fetchPages env false fuel offset acc o.cache calls2 =
            some (Except.ok o2) ∧
          o2.items = o.items ∧ o2.cache = o.cache ∧ o2.aborted = o.aborted := by
  intro fuel
  induction fuel with
  | zero => intro offset acc cache calls o h; simp [fetchPages] at h
  | succ n ih =>
    intro offset acc cache calls o h calls2
    cases hr : resolvePage env false cache offset with
    | fatal e =>
      rw [fetchPages_step_fatal env false n offset acc cache calls e hr] at h
      simp at h
    | fetchError msg =>
      rw [fetchPages_step_fetchError env false n offset acc cache calls msg hr] at h
      simp only [Option.some.injEq, Except.ok.injEq] at h
      subst h
      exact ⟨⟨acc, cache, calls2, some offset⟩,
        fetchPages_step_fetchError env false n offset acc cache calls2 msg hr,
        rfl, rfl, rfl⟩
    | page p cache2 net =>
      cases hg : getItems p with
      | error e =>
        rw [fetchPages_step_getItemsFail env false n offset acc cache calls
          p cache2 net e hr hg] at h
        simp at h
      | ok items =>
        rw [fetchPages_step_items env false n offset acc cache calls
          p cache2 net items hr hg] at h
        rcases resolvePage_page_inv env false cache offset p cache2 net hr with
          ⟨_, hhit, hceq, hneteq⟩ | ⟨hs, hw, hceq, hneteq, hmiss⟩
        · subst hneteq
          simp only [Bool.false_eq_true, if_false] at h
          by_cases hl : items.length < 100
          · rw [if_pos hl] at h
            simp only [Option.some.injEq, Except.ok.injEq] at h
            subst h
            have hoc : cache2 offset = some (FileData.json p) := by
              rw [hceq]; exact hhit
            refine ⟨⟨acc ++ items, cache2, calls2, none⟩, ?_, rfl, rfl, rfl⟩
            rw [fetchPages_step_items env false n offset acc cache2 calls2
              p cache2 false items (resolve_hit env cache2 offset p hoc) hg,
              if_pos hl]
            simp
          · rw [if_neg hl] at h
            have hoc : o.cache offset = some (FileData.json p) := by
              rw [fetchPages_cache_lt env false n (offset + 100) (acc ++ items)
                cache2 calls o h offset (by omega), hceq]
              exact hhit
            obtain ⟨o2, ih1, ih2, ih3, ih4⟩ :=
              ih (offset + 100) (acc ++ items) cache2 calls o h calls2
            refine ⟨o2, ?_, ih2, ih3, ih4⟩
            rw [fetchPages_step_items env false n offset acc o.cache calls2
              p o.cache false items (resolve_hit env o.cache offset p hoc) hg,
              if_neg hl]
            simpa using ih1
        · subst hneteq
          simp only [if_true] at h
          by_cases hl : items.length < 100
          · rw [if_pos hl] at h
            simp only [Option.some.injEq, Except.ok.injEq] at h
            subst h
            have hoc : cache2 offset = some (FileData.json p) := by
              rw [hceq]; exact Function.update_same _ _ _
            refine ⟨⟨acc ++ items, cache2, calls2, none⟩, ?_, rfl, rfl, rfl⟩
            rw [fetchPages_step_items env false n offset acc cache2 calls2
              p cache2 false items (resolve_hit env cache2 offset p hoc) hg,
              if_pos hl]
            simp
          · rw [if_neg hl] at h
            have hoc : o.cache offset = some (FileData.json p) := by
              rw [fetchPages_cache_lt env false n (offset + 100) (acc ++ items)
                cache2 (calls ++ [offset]) o h offset (by omega), hceq]
              exact Function.update_same _ _ _
            obtain ⟨o2, ih1, ih2, ih3, ih4⟩ :=
              ih (offset + 100) (acc ++ items) cache2 (calls ++ [offset]) o h calls2
            refine ⟨o2, ?_, ih2, ih3, ih4⟩
            rw [fetchPages_step_items env false n offset acc o.cache calls2
              p o.cache false items (resolve_hit env o.cache offset p hoc) hg,
              if_neg hl]
            simpa using ih1

/-! ## Run shapes: completion on the first short page, abort on a fetch
error -/

/-- The first iteration of a run over a fresh offset (no cache file, or
the cache bypassed) whose page the server serves and the filesystem
persists: a successful network resolution of that page. -/
theorem resolve_fresh (env : Env) (skip : Bool) (cache : Cache) (offset : Nat)
    (p : Json) (hs : env.server offset = ServerResp.ok p)
    (hw : env.cacheWriteOk offset = true) (hc : cache offset = none) :
    resolvePage env skip cache offset = ResolveResult.page p
      (Function.update cache offset (some (FileData.json p))) true := by
  cases skip
  · rw [resolve_miss env cache offset hc]
    exact networkFetch_ok env cache offset p hs hw
  · rw [resolve_skip]
    exact networkFetch_ok env cache offset p hs hw

theorem getItems_mkPage (xs : List Json) : getItems (mkPage xs) = Except.ok xs := by
  simp [getItems, mkPage, lookupField]

/-- A run over fresh offsets whose pages the server serves, full before
index `k` and short at `k`, halts at page `k`: it returns the pages'
items concatenated in offset order, with one successful network call per
visited offset, and no abort. -/
theorem fetchPages_complete (env : Env) (skip : Bool) :
    ∀ (k : Nat) (ps : Nat → List Json) (offset : Nat) (acc : List Json)
      (cache : Cache) (calls : List Nat) (fuel : Nat),
      k + 1 ≤ fuel →
      (∀ i, i ≤ k →
        env.server (offset + 100 * i) = ServerResp.ok (mkPage (ps i)) ∧
        env.cacheWriteOk (offset + 100 * i) = true ∧
        cache (offset + 100 * i) = none) →
      (∀ i, i < k → 100 ≤ (ps i).length) →
      (ps k).length < 100 →
      ∃ o, fetchPages env skip fuel offset acc cache calls =
          some (Except.ok o) ∧
        o.items = acc ++ ((List.range (k + 1)).map ps).flatten ∧
        o.calls = calls ++ (List.range (k + 1)).map (fun i => offset + 100 * i) ∧
        o.aborted = none := by
  intro k
  induction k with
  | zero =>
    intro ps offset acc cache calls fuel hfuel hserv hfull hshort
    obtain ⟨n, rfl⟩ : ∃ n, fuel = n + 1 := ⟨fuel - 1, by omega⟩
    obtain ⟨hs, hw, hc⟩ := hserv 0 (le_refl 0)
    simp only [Nat.mul_zero, Nat.add_zero] at hs hw hc
    rw [fetchPages_step_items env skip n offset acc cache calls (mkPage (ps 0))
      _ true (ps 0) (resolve_fresh env skip cache offset _ hs hw hc)
      (getItems_mkPage (ps 0)), if_pos hshort]
    refine ⟨_, rfl, by simp [List.range_succ], by simp [List.range_succ], rfl⟩
  | succ k ihk =>
    intro ps offset acc cache calls fuel hfuel hserv hfull hshort
    obtain ⟨n, rfl⟩ : ∃ n, fuel = n + 1 := ⟨fuel - 1, by omega⟩
    obtain ⟨hs, hw, hc⟩ := hserv 0 (by omega)
    simp only [Nat.mul_zero, Nat.add_zero] at hs hw hc
    have hlen : ¬(ps 0).length < 100 := by
      have := hfull 0 (by omega); omega
    rw [fetchPages_step_items env skip n offset acc cache calls (mkPage (ps 0))
      _ true (ps 0) (resolve_fresh env skip cache offset _ hs hw hc)
      (getItems_mkPage (ps 0)), if_neg hlen]
    simp only [if_true]
    obtain ⟨o, ho1, ho2, ho3, ho4⟩ := ihk (fun i => ps (i + 1)) (offset + 100)
      (acc ++ ps 0)
      (Function.update cache offset (some (FileData.json (mkPage (ps 0)))))
      (calls ++ [offset]) n (by omega)
      (by
        intro i hi
        have harith : offset + 100 + 100 * i = offset + 100 * (i + 1) := by ring
        obtain ⟨h1, h2, h3⟩ := hserv (i + 1) (by omega)
        refine ⟨by rw [harith]; exact h1, by rw [harith]; exact h2, ?_⟩
        rw [Function.update_noteq (by omega : offset + 100 + 100 * i ≠ offset) _ _,
          harith]
        exact h3)
      (fun i hi => hfull (i + 1) (by omega)) hshort
    refine ⟨o, ho1, ?_, ?_, ho4⟩
    · rw [ho2]
      have hmap : (List.range (k + 2)).map ps =
          ps 0 :: (List.range (k + 1)).map (fun i => ps (i + 1)) := by
        rw [List.range_succ_eq_map, List.map_cons, List.map_map]
        rfl
      rw [hmap]
      simp
    · rw [ho3]
      have hmap : (List.range (k + 2)).map (fun i => offset + 100 * i) =
          offset :: (List.range (k + 1)).map (fun i => offset + 100 + 100 * i) := by
        rw [List.range_succ_eq_map, List.map_cons, List.map_map]
        have : ((fun i => offset + 100 * i) ∘ Nat.succ) =
            fun i => offset + 100 + 100 * i := by
          funext i
          simp [Function.comp]
          ring
        rw [this]
        simp
      rw [hmap]
      simp

/-- A run over fresh offsets whose pages the server serves full before
index `k` and fails with a client error at `k` breaks there: it returns
the items of pages `0..k-1`, records the abort offset, and logs no call
at the failing offset. -/
theorem fetchPages_clientAbort (env : Env) (skip : Bool) :
    ∀ (k : Nat) (ps : Nat → List Json) (msg : String) (offset : Nat)
      (acc : List Json) (cache : Cache) (calls : List Nat) (fuel : Nat),
      k + 1 ≤ fuel →
      (∀ i, i < k →
        env.server (offset + 100 * i) = ServerResp.ok (mkPage (ps i)) ∧
        env.cacheWriteOk (offset + 100 * i) = true ∧
        cache (offset + 100 * i) = none ∧ 100 ≤ (ps i).length) →
      env.server (offset + 100 * k) = ServerResp.clientError msg →
      cache (offset + 100 * k) = none →
      ∃ o, fetchPages env skip fuel offset acc cache calls =
          some (Except.ok o) ∧
        o.items = acc ++ ((List.range k).map ps).flatten ∧
        o.calls = calls ++ (List.range k).map (fun i => offset + 100 * i) ∧
        o.aborted = some (offset + 100 * k) := by
  intro k
  induction k with
  | zero =>
    intro ps msg offset acc cache calls fuel hfuel hserv herr hcnone
    obtain ⟨n, rfl⟩ : ∃ n, fuel = n + 1 := ⟨fuel - 1, by omega⟩
    simp only [Nat.mul_zero, Nat.add_zero] at herr hcnone
    have hres : resolvePage env skip cache offset = ResolveResult.fetchError msg := by
      cases skip
      · rw [resolve_miss env cache offset hcnone]
        exact networkFetch_clientError env cache offset msg herr
      · rw [resolve_skip]
        exact networkFetch_clientError env cache offset msg herr
    rw [fetchPages_step_fetchError env skip n offset acc cache calls msg hres]
    exact ⟨_, rfl, by simp, by simp, by simp⟩
  | succ k ihk =>
    intro ps msg offset acc cache calls fuel hfuel hserv herr hcnone
    obtain ⟨n, rfl⟩ : ∃ n, fuel = n + 1 := ⟨fuel - 1, by omega⟩
    obtain ⟨hs, hw, hc, hlen100⟩ := hserv 0 (by omega)
    simp only [Nat.mul_zero, Nat.add_zero] at hs hw hc
    have hlen : ¬(ps 0).length < 100 := by omega
    rw [fetchPages_step_items env skip n offset acc cache calls (mkPage (ps 0))
      _ true (ps 0) (resolve_fresh env skip cache offset _ hs hw hc)
      (getItems_mkPage (ps 0)), if_neg hlen]
    simp only [if_true]
    have harith : ∀ i : Nat, offset + 100 + 100 * i = offset + 100 * (i + 1) := by
      intro i; ring
    obtain ⟨o, ho1, ho2, ho3, ho4⟩ := ihk (fun i => ps (i + 1)) msg (offset + 100)
      (acc ++ ps 0)
      (Function.update cache offset (some (FileData.json (mkPage (ps 0)))))
      (calls ++ [offset]) n (by omega)
      (by
        intro i hi
        obtain ⟨h1, h2, h3, h4⟩ := hserv (i + 1) (by omega)
        refine ⟨by rw [harith]; exact h1, by rw [harith]; exact h2, ?_, h4⟩
        rw [Function.update_noteq (by omega : offset + 100 + 100 * i ≠ offset) _ _,
          harith]
        exact h3)
      (by rw [harith]; exact herr)
      (by
        rw [Function.update_noteq (by omega : offset + 100 + 100 * k ≠ offset) _ _,
          harith]
        exact hcnone)
    refine ⟨o, ho1, ?_, ?_, by rw [ho4, harith]⟩
    · rw [ho2]
      have hmap : (List.range (k + 1)).map ps =
          ps 0 :: (List.range k).map (fun i => ps (i + 1)) := by
        rw [List.range_succ_eq_map, List.map_cons, List.map_map]
        rfl
      rw [hmap]
      simp
    · rw [ho3]
      have hmap : (List.range (k + 1)).map (fun i => offset + 100 * i) =
          offset :: (List.range k).map (fun i => offset + 100 + 100 * i) := by
        rw [List.range_succ_eq_map, List.map_cons, List.map_map]
        have : ((fun i => offset + 100 * i) ∘ Nat.succ) =
            fun i => offset + 100 + 100 * i := by
          funext i
          simp [Function.comp]
          ring
        rw [this]
        simp
      rw [hmap]
      simp

/-! ## Unfolding `main` over the loop's result -/

theorem main_of_fetch_ok (gz : GzipModel) (env : Env) (skip : Bool)
    (c0 : Cache) (fuel : Nat) (o : FetchOutcome)
    (hf : fetch_all_pages env skip c0 fuel = some (Except.ok o))
    (hout : env.outputWriteOk = true) :
    main gz env skip c0 fuel = some (Except.ok ⟨o.items, o.cache, o.calls,
      o.aborted, save_json o.items, compress_json gz (save_json o.items)⟩) := by
  unfold main
  rw [hf, hout]
  rfl

theorem main_of_fetch_ok_nowrite (gz : GzipModel) (env : Env) (skip : Bool)
    (c0 : Cache) (fuel : Nat) (o : FetchOutcome)
    (hf : fetch_all_pages env skip c0 fuel = some (Except.ok o))
    (hout : env.outputWriteOk = false) :
    main gz env skip c0 fuel = some (Except.error RunError.ioError) := by
  unfold main
  rw [hf, hout]
  rfl

theorem main_of_fetch_error (gz : GzipModel) (env : Env) (skip : Bool)
    (c0 : Cache) (fuel : Nat) (e : RunError)
    (hf : fetch_all_pages env skip c0 fuel = some (Except.error e)) :
    main gz env skip c0 fuel = some (Except.error e) := by
  unfold main
  rw [hf]

theorem main_of_fetch_none (gz : GzipModel) (env : Env) (skip : Bool)
    (c0 : Cache) (fuel : Nat)
    (hf : fetch_all_pages env skip c0 fuel = none) :
    main gz env skip c0 fuel = none := by
  unfold main
  rw [hf]

/-- The page resolution goes to the network exactly when the cache is
bypassed or the cache file is absent. -/
theorem resolve_network_of (env : Env) (skip : Bool) (cache : Cache)
    (offset : Nat) (h : skip = true ∨ cache offset = none) :
    resolvePage env skip cache offset = networkFetch env cache offset := by
  rcases h with h | h
  · subst h; exact resolve_skip env cache offset
  · cases skip
    · exact resolve_miss env cache offset h
    · exact resolve_skip env cache offset

/-! ## Concrete environments used by the witnesses -/

/-- A server serving 100 items at offset 0 and 50 items at every other
offset, with a writable filesystem. -/
def envTwoPages : Env where
  server := fun off =>
    if off = 0 then ServerResp.ok (mkPage (List.replicate 100 Json.null))
    else ServerResp.ok (mkPage (List.replicate 50 Json.null))
  cacheWriteOk := fun _ => true
  outputWriteOk := true

/-- The two pages `envTwoPages` serves, by page index. -/
def psTwoPages : Nat → List Json := fun i =>
  if i = 0 then List.replicate 100 Json.null else List.replicate 50 Json.null

/-- A server failing every request with a 404 client error. -/
def env404 : Env where
  server := fun _ => ServerResp.clientError "404"
  cacheWriteOk := fun _ => true
  outputWriteOk := true

/-- A server serving the same single-item (hence last) page everywhere. -/
def envOneShort : Env where
  server := fun _ => ServerResp.ok (mkPage [Json.num 1])
  cacheWriteOk := fun _ => true
  outputWriteOk := true

def pageA : Json := mkPage [Json.num 1]

def pageB : Json := mkPage [Json.num 2]

/-- A cache directory holding one file: `page_0.json` with `pageA`. -/
def cacheWithA : Cache :=
  Function.update emptyCache 0 (some (FileData.json pageA))

/-- A server now serving `pageB` (one item) everywhere. -/
def envServesB : Env where
  server := fun _ => ServerResp.ok pageB
  cacheWriteOk := fun _ => true
  outputWriteOk := true

/-! ## The claims -/

/-- C1: for every response sequence in which some page's items list has
length < 100 (including 0, and including an empty first page — index `k`
marks the first such page), `fetch_all_pages` halts at that page and
returns the concatenation of the visited pages' items in ascending offset
order, with exactly one page resolution — here, over fresh offsets, one
successful network call — per visited offset `0, 100, …, 100·k`. -/
theorem claim_C1 (env : Env) (skip : Bool) (c0 : Cache) (k : Nat)
    (ps : Nat → List Json) (fuel : Nat)
    (hfuel : k + 1 ≤ fuel)
    (hpages : ∀ i, i ≤ k →
      env.server (100 * i) = ServerResp.ok (mkPage (ps i)) ∧
      env.cacheWriteOk (100 * i) = true ∧ c0 (100 * i) = none)
    (hfull : ∀ i, i < k → 100 ≤ (ps i).length)
    (hshort : (ps k).length < 100) :
    ∃ o, fetch_all_pages env skip c0 fuel = some (Except.ok o) ∧
      o.items = ((List.range (k + 1)).map ps).flatten ∧
      o.calls = (List.range (k + 1)).map (fun i => 100 * i) ∧
      o.aborted = none := by
  obtain ⟨o, h1, h2, h3, h4⟩ := fetchPages_complete env skip k ps 0 [] c0 []
    fuel hfuel (by intro i hi; simpa using hpages i hi) hfull hshort
  exact ⟨o, h1, by simpa using h2, by simpa using h3, h4⟩

set_option maxRecDepth 8000 in
/-- C1 witness: 100 items at offset 0 and 50 at offset 100 yield a
150-item result, with exactly the two calls `[0, 100]`, after two
iterations. -/
theorem claim_C1_witness :
    (∃ o, fetch_all_pages envTwoPages true emptyCache 2 = some (Except.ok o) ∧
      o.items = ((List.range 2).map psTwoPages).flatten ∧
      o.calls = (List.range 2).map (fun i => 100 * i) ∧
      o.aborted = none) ∧
    (((List.range 2).map psTwoPages).flatten).length = 150 ∧
    (List.range 2).map (fun i => 100 * i) = [0, 100] :=
  ⟨claim_C1 envTwoPages true emptyCache 1 psTwoPages 2 (by omega)
      (by decide) (by decide) (by decide),
    by decide, by decide⟩

/-- C2: when the server fails the fetch at offset `100·k` with a client
error after serving full pages below it, the driver records the error
(the abort offset), stops, and returns exactly the items accumulated from
the earlier offsets; `main` still saves and compresses that partial
result. -/
theorem claim_C2 (gz : GzipModel) (env : Env) (skip : Bool) (c0 : Cache)
    (k : Nat) (ps : Nat → List Json) (msg : String) (fuel : Nat)
    (hfuel : k + 1 ≤ fuel)
    (hpages : ∀ i, i < k →
      env.server (100 * i) = ServerResp.ok (mkPage (ps i)) ∧
      env.cacheWriteOk (100 * i) = true ∧ c0 (100 * i) = none ∧
      100 ≤ (ps i).length)
    (herr : env.server (100 * k) = ServerResp.clientError msg)
    (hc : c0 (100 * k) = none)
    (hout : env.outputWriteOk = true) :
    ∃ m, main gz env skip c0 fuel = some (Except.ok m) ∧
      m.items = ((List.range k).map ps).flatten ∧
      m.aborted = some (100 * k) ∧
      m.outputBytes = save_json (((List.range k).map ps).flatten) ∧
      m.compressedBytes =
        compress_json gz (save_json (((List.range k).map ps).flatten)) := by
  obtain ⟨o, h1, h2, h3, h4⟩ := fetchPages_clientAbort env skip k ps msg 0 [] c0 []
    fuel hfuel (by intro i hi; simpa using hpages i hi) (by simpa using herr)
    (by simpa using hc)
  have h2' : o.items = ((List.range k).map ps).flatten := by simpa using h2
  refine ⟨⟨o.items, o.cache, o.calls, o.aborted, save_json o.items,
    compress_json gz (save_json o.items)⟩,
    main_of_fetch_ok gz env skip c0 fuel o h1 hout, h2', by simpa using h4,
    by rw [h2'], by rw [h2']⟩

/-- C2 witness: a 404 at offset 0 aborts immediately; the empty partial
result is still saved — the output file holds the two bytes `[]` — and
compressed. -/
theorem claim_C2_witness :
    (∃ m, main gzipId env404 true emptyCache 1 = some (Except.ok m) ∧
      m.items = ((List.range 0).map (fun _ => ([] : List Json))).flatten ∧
      m.aborted = some (100 * 0) ∧
      m.outputBytes = save_json (((List.range 0).map
        (fun _ => ([] : List Json))).flatten) ∧
      m.compressedBytes = compress_json gzipId (save_json (((List.range 0).map
        (fun _ => ([] : List Json))).flatten))) ∧
    save_json (((List.range 0).map (fun _ => ([] : List Json))).flatten) =
      [91, 93] :=
  ⟨claim_C2 gzipId env404 true emptyCache 0 (fun _ => []) "404" 1 (by omega)
      (by omega) (by decide) (by decide) (by decide),
    by decide⟩

/-- C3: with the cache enabled, an existing cache file for offset `O` is
returned as the page for `O` with no network call and no cache change;
and after a first (network) resolution of a fresh offset persists the
fetched page, a second resolution of the same offset returns the
identical page content from the cache, with no network call. -/
theorem claim_C3 (env : Env) (c cFresh : Cache) (O : Nat) (p q : Json)
    (hhit : c O = some (FileData.json q))
    (hmiss : cFresh O = none)
    (hs : env.server O = ServerResp.ok p)
    (hw : env.cacheWriteOk O = true) :
    resolvePage env false c O = ResolveResult.page q c false ∧
    resolvePage env false cFresh O = ResolveResult.page p
      (Function.update cFresh O (some (FileData.json p))) true ∧
    resolvePage env false (Function.update cFresh O (some (FileData.json p))) O =
      ResolveResult.page p
        (Function.update cFresh O (some (FileData.json p))) false := by
  refine ⟨resolve_hit env c O q hhit, ?_, ?_⟩
  · rw [resolve_miss env cFresh O hmiss]
    exact networkFetch_ok env cFresh O p hs hw
  · exact resolve_hit env _ O p (Function.update_same _ _ _)

/-- C3 witness: offset 0, a cache holding `pageA`, and a fresh cache
against a server serving `pageB`. -/
theorem claim_C3_witness :
    resolvePage envServesB false cacheWithA 0 =
      ResolveResult.page pageA cacheWithA false ∧
    resolvePage envServesB false emptyCache 0 = ResolveResult.page pageB
      (Function.update emptyCache 0 (some (FileData.json pageB))) true ∧
    resolvePage envServesB false
        (Function.update emptyCache 0 (some (FileData.json pageB))) 0 =
      ResolveResult.page pageB
        (Function.update emptyCache 0 (some (FileData.json pageB))) false :=
  claim_C3 envServesB cacheWithA emptyCache 0 pageB pageA rfl rfl rfl rfl

/-- C4: with the skip-cache flag set, the resolution of any offset ignores
the cache contents entirely (the cache `c` is arbitrary — in particular it
may already hold a file for `O`) and fetches from the network; the fetched
page is persisted afterwards, overwriting whatever entry existed. -/
theorem claim_C4 (env : Env) (c : Cache) (O : Nat) (p : Json)
    (hs : env.server O = ServerResp.ok p)
    (hw : env.cacheWriteOk O = true) :
    resolvePage env true c O = ResolveResult.page p
      (Function.update c O (some (FileData.json p))) true ∧
    Function.update c O (some (FileData.json p)) O =
      some (FileData.json p) := by
  refine ⟨?_, Function.update_same _ _ _⟩
  rw [resolve_skip]
  exact networkFetch_ok env c O p hs hw

/-- C4 witness: a cache already holding `pageA` at offset 0 is bypassed
and its entry overwritten with the freshly served `pageB`. -/
theorem claim_C4_witness :
    (resolvePage envServesB true cacheWithA 0 = ResolveResult.page pageB
      (Function.update cacheWithA 0 (some (FileData.json pageB))) true ∧
    Function.update cacheWithA 0 (some (FileData.json pageB)) 0 =
      some (FileData.json pageB)) ∧
    cacheWithA 0 = some (FileData.json pageA) :=
  ⟨claim_C4 envServesB cacheWithA 0 pageB rfl rfl, by decide⟩

/-- C5 as stated is false: "for every offset whose cache file already
exists, no operation of the system changes or removes that file" fails on
a skip-cache run — here the cache file for offset 0 holds `pageA`, and one
`fetch_all_pages` run with the flag set leaves it holding the freshly
fetched `pageB` instead. -/
theorem claim_C5_counterexample :
    cacheWithA 0 = some (FileData.json pageA) ∧
    (∃ o, fetch_all_pages envServesB true cacheWithA 1 = some (Except.ok o) ∧
      o.cache 0 = some (FileData.json pageB) ∧ o.cache 0 ≠ cacheWithA 0) :=
  ⟨by decide, ⟨⟨[Json.num 2],
    Function.update cacheWithA 0 (some (FileData.json pageB)), [0], none⟩,
    rfl, by decide, by decide⟩⟩

/-- C5 amended: cache entries are created lazily on the first successful
fetch of an offset and store the raw page JSON; no run ever deletes a
cache file, and a run with the cache enabled never changes an existing
file — but a run with skip-cache set overwrites existing entries with the
newly fetched pages. -/
theorem claim_C5 (env : Env) (skip : Bool) (c0 : Cache) (fuel : Nat)
    (o : FetchOutcome)
    (h : fetch_all_pages env skip c0 fuel = some (Except.ok o)) :
    (skip = false → ∀ k fd, c0 k = some fd → o.cache k = some fd) ∧
    (∀ k, (c0 k).isSome → (o.cache k).isSome) ∧
    (∀ k, c0 k = none → o.cache k = none ∨
      ∃ p, o.cache k = some (FileData.json p) ∧
        env.server k = ServerResp.ok p ∧ k ∈ o.calls) := by
  refine ⟨?_, ?_, ?_⟩
  · intro hskip k fd hk
    rcases fetchPages_cache_master env skip fuel 0 [] c0 [] o h k with
      h1 | ⟨q, _, _, _, _, hnone⟩
    · rw [h1, hk]
    · rw [hnone hskip] at hk; cases hk
  · intro k hk
    rcases fetchPages_cache_master env skip fuel 0 [] c0 [] o h k with
      h1 | ⟨q, hq, _, _, _, _⟩
    · rw [h1]; exact hk
    · rw [hq]; rfl
  · intro k hk
    rcases fetchPages_cache_master env skip fuel 0 [] c0 [] o h k with
      h1 | ⟨q, hq1, hq2, hq3, _, _⟩
    · exact Or.inl (h1.trans hk)
    · exact Or.inr ⟨q, hq1, hq2, hq3⟩

/-- The outcome of a cache-enabled run over `cacheWithA` against
`envServesB`: a cache hit of `pageA`, nothing written. -/
def oC5 : FetchOutcome := ⟨[Json.num 1], cacheWithA, [], none⟩

theorem claim_C5_witness :
    (false = false → ∀ k fd, cacheWithA k = some fd → oC5.cache k = some fd) ∧
    (∀ k, (cacheWithA k).isSome → (oC5.cache k).isSome) ∧
    (∀ k, cacheWithA k = none → oC5.cache k = none ∨
      ∃ p, oC5.cache k = some (FileData.json p) ∧
        envServesB.server k = ServerResp.ok p ∧ k ∈ oC5.calls) :=
  claim_C5 envServesB false cacheWithA 1 oC5 rfl

/-- C6: the compress/decompress pair is byte-faithful for every byte
sequence written as a file — `writelines` chunking loses nothing and the
gzip codec round-trips — and in particular round-trips exactly the JSON
bytes `save_json` writes. -/
theorem claim_C6 (gz : GzipModel) :
    (∀ file : List Nat, decompress_json gz (compress_json gz file) = file) ∧
    (∀ items : List Json,
      decompress_json gz (compress_json gz (save_json items)) =
        save_json items) := by
  have key : ∀ file : List Nat,
      decompress_json gz (compress_json gz file) = file := by
    intro file
    unfold decompress_json compress_json
    rw [splitLines_flatten, gz.inv, splitLines_flatten]
  exact ⟨key, fun items => key (save_json items)⟩

/-- C7: a cache-enabled pipeline run that completed (normally or by a
caught fetch error), re-run against the unchanged server over the cache
state it left behind, returns the same item list and byte-for-byte the
same output-file and compressed-file contents. -/
theorem claim_C7 (gz : GzipModel) (env : Env) (c0 : Cache) (fuel : Nat)
    (m : MainOutcome)
    (h : main gz env false c0 fuel = some (Except.ok m)) :
    ∃ m2, main gz env false m.cache fuel = some (Except.ok m2) ∧
      m2.items = m.items ∧ m2.outputBytes = m.outputBytes ∧
      m2.compressedBytes = m.compressedBytes := by
  cases hf : fetch_all_pages env false c0 fuel with
  | none => rw [main_of_fetch_none gz env false c0 fuel hf] at h; cases h
  | some r =>
    cases r with
    | error e =>
      rw [main_of_fetch_error gz env false c0 fuel e hf] at h
      simp at h
    | ok o =>
      cases hout : env.outputWriteOk with
      | false =>
        rw [main_of_fetch_ok_nowrite gz env false c0 fuel o hf hout] at h
        simp at h
      | true =>
        rw [main_of_fetch_ok gz env false c0 fuel o hf hout] at h
        simp only [Option.some.injEq, Except.ok.injEq] at h
        subst h
        obtain ⟨o2, h1, h2, h3, h4⟩ := fetchPages_replay env fuel 0 [] c0 [] o hf []
        exact ⟨⟨o2.items, o2.cache, o2.calls, o2.aborted, save_json o2.items,
          compress_json gz (save_json o2.items)⟩,
          main_of_fetch_ok gz env false o.cache fuel o2 h1 hout,
          h2, by rw [h2], by rw [h2]⟩

/-- The outcome of the first pipeline run of the C7 witness: one fresh
page fetched, cached, saved and compressed. -/
def mRun1 : MainOutcome :=
  ⟨[Json.num 1],
    Function.update emptyCache 0 (some (FileData.json (mkPage [Json.num 1]))),
    [0], none, save_json [Json.num 1],
    compress_json gzipId (save_json [Json.num 1])⟩

theorem claim_C7_witness :
    ∃ m2, main gzipId envOneShort false mRun1.cache 1 = some (Except.ok m2) ∧
      m2.items = mRun1.items ∧ m2.outputBytes = mRun1.outputBytes ∧
      m2.compressedBytes = mRun1.compressedBytes :=
  claim_C7 gzipId envOneShort emptyCache 1 mRun1 rfl

/-- C8: neither filesystem errors nor malformed server JSON are caught
anywhere. A failing cache write during a network resolution ends the loop
with an uncaught `ioError` — for any accumulator, so nothing partial is
returned; a 2xx body that is not JSON likewise ends it with an uncaught
decode error; when the loop raises, `main` re-raises without saving; and
a failing output write makes the run fatal after the loop. -/
theorem claim_C8 (gz : GzipModel)
    (e1 : Env) (s1 : Bool) (c1 : Cache) (n1 off1 : Nat) (a1 : List Json)
    (l1 : List Nat) (p1 : Json)
    (h1a : s1 = true ∨ c1 off1 = none)
    (h1b : e1.server off1 = ServerResp.ok p1)
    (h1c : e1.cacheWriteOk off1 = false)
    (e2 : Env) (s2 : Bool) (c2 : Cache) (n2 off2 : Nat) (a2 : List Json)
    (l2 : List Nat)
    (h2a : s2 = true ∨ c2 off2 = none)
    (h2b : e2.server off2 = ServerResp.badJson)
    (e3 : Env) (s3 : Bool) (c3 : Cache) (f3 : Nat) (err : RunError)
    (h3 : fetch_all_pages e3 s3 c3 f3 = some (Except.error err))
    (e4 : Env) (s4 : Bool) (c4 : Cache) (f4 : Nat) (o4 : FetchOutcome)
    (h4a : e4.outputWriteOk = false)
    (h4b : fetch_all_pages e4 s4 c4 f4 = some (Except.ok o4)) :
    fetchPages e1 s1 (n1 + 1) off1 a1 c1 l1 =
      some (Except.error RunError.ioError) ∧
    fetchPages e2 s2 (n2 + 1) off2 a2 c2 l2 =
      some (Except.error RunError.jsonDecodeError) ∧
    main gz e3 s3 c3 f3 = some (Except.error err) ∧
    main gz e4 s4 c4 f4 = some (Except.error RunError.ioError) := by
  refine ⟨?_, ?_, main_of_fetch_error gz e3 s3 c3 f3 err h3,
    main_of_fetch_ok_nowrite gz e4 s4 c4 f4 o4 h4b h4a⟩
  · refine fetchPages_step_fatal e1 s1 n1 off1 a1 c1 l1 RunError.ioError ?_
    rw [resolve_network_of e1 s1 c1 off1 h1a]
    exact networkFetch_writeFail e1 c1 off1 p1 h1b h1c
  · refine fetchPages_step_fatal e2 s2 n2 off2 a2 c2 l2
      RunError.jsonDecodeError ?_
    rw [resolve_network_of e2 s2 c2 off2 h2a]
    exact networkFetch_badJson e2 c2 off2 h2b

/-- A server that answers, but a filesystem that refuses the cache write. -/
def envWriteFail : Env where
  server := fun _ => ServerResp.ok pageB
  cacheWriteOk := fun _ => false
  outputWriteOk := true

/-- A server whose 2xx bodies are not valid JSON. -/
def envBadJson : Env where
  server := fun _ => ServerResp.badJson
  cacheWriteOk := fun _ => true
  outputWriteOk := true

/-- A working server, but the output file cannot be written. -/
def envNoOutput : Env where
  server := fun _ => ServerResp.ok pageB
  cacheWriteOk := fun _ => true
  outputWriteOk := false

theorem claim_C8_witness :
    fetchPages envWriteFail true 1 0 [Json.null] emptyCache [] =
      some (Except.error RunError.ioError) ∧
    fetchPages envBadJson true 1 0 [Json.null] emptyCache [] =
      some (Except.error RunError.jsonDecodeError) ∧
    main gzipId envBadJson true emptyCache 1 =
      some (Except.error RunError.jsonDecodeError) ∧
    main gzipId envNoOutput true emptyCache 1 =
      some (Except.error RunError.ioError) :=
  claim_C8 gzipId
    envWriteFail true emptyCache 0 0 [Json.null] [] pageB (Or.inl rfl) rfl rfl
    envBadJson true emptyCache 0 0 [Json.null] [] (Or.inl rfl) rfl
    envBadJson true emptyCache 1 RunError.jsonDecodeError rfl
    envNoOutput true emptyCache 1
    ⟨[Json.num 2], Function.update emptyCache 0 (some (FileData.json pageB)),
      [0], none⟩ rfl rfl

/-- C9: a page without an `"items"` list — read from a cache file or
freshly fetched — raises an uncaught `KeyError`/`TypeError`, and a cache
file that is not valid JSON raises an uncaught decode error; in every
case the loop returns the error (discarding any accumulator, so never a
partial result) and `main` aborts without saving. -/
theorem claim_C9 (gz : GzipModel)
    (e1 : Env) (c1 : Cache) (n1 off1 : Nat) (a1 : List Json) (l1 : List Nat)
    (p1 : Json) (err1 : RunError)
    (h1a : c1 off1 = some (FileData.json p1))
    (h1b : getItems p1 = Except.error err1)
    (e2 : Env) (c2 : Cache) (n2 off2 : Nat) (a2 : List Json) (l2 : List Nat)
    (h2 : c2 off2 = some FileData.invalid)
    (e3 : Env) (s3 : Bool) (c3 : Cache) (n3 off3 : Nat) (a3 : List Json)
    (l3 : List Nat) (p3 : Json) (err3 : RunError)
    (h3a : s3 = true ∨ c3 off3 = none)
    (h3b : e3.server off3 = ServerResp.ok p3)
    (h3c : e3.cacheWriteOk off3 = true)
    (h3d : getItems p3 = Except.error err3)
    (e4 : Env) (c4 : Cache) (n4 : Nat)
    (h4 : c4 0 = some FileData.invalid) :
    fetchPages e1 false (n1 + 1) off1 a1 c1 l1 = some (Except.error err1) ∧
    fetchPages e2 false (n2 + 1) off2 a2 c2 l2 =
      some (Except.error RunError.jsonDecodeError) ∧
    fetchPages e3 s3 (n3 + 1) off3 a3 c3 l3 = some (Except.error err3) ∧
    main gz e4 false c4 (n4 + 1) =
      some (Except.error RunError.jsonDecodeError) := by
  refine ⟨?_, ?_, ?_, ?_⟩
  · exact fetchPages_step_getItemsFail e1 false n1 off1 a1 c1 l1 p1 c1 false
      err1 (resolve_hit e1 c1 off1 p1 h1a) h1b
  · exact fetchPages_step_fatal e2 false n2 off2 a2 c2 l2
      RunError.jsonDecodeError (resolve_invalid e2 c2 off2 h2)
  · refine fetchPages_step_getItemsFail e3 s3 n3 off3 a3 c3 l3 p3
      (Function.update c3 off3 (some (FileData.json p3))) true err3 ?_ h3d
    rw [resolve_network_of e3 s3 c3 off3 h3a]
    exact networkFetch_ok e3 c3 off3 p3 h3b h3c
  · refine main_of_fetch_error gz e4 false c4 (n4 + 1)
      RunError.jsonDecodeError ?_
    exact fetchPages_step_fatal e4 false n4 0 [] c4 []
      RunError.jsonDecodeError (resolve_invalid e4 c4 0 h4)

/-- A server serving pages that lack the `"items"` field. -/
def envNoItems : Env where
  server := fun _ => ServerResp.ok (Json.obj [])
  cacheWriteOk := fun _ => true
  outputWriteOk := true

/-- A cache whose file for offset 0 parses but has no `"items"` field. -/
def cacheNoItems : Cache :=
  Function.update emptyCache 0 (some (FileData.json (Json.obj [])))

/-- A cache whose file for offset 0 is not valid JSON. -/
def cacheInvalid : Cache :=
  Function.update emptyCache 0 (some FileData.invalid)

theorem claim_C9_witness :
    fetchPages envNoItems false 1 0 [Json.null] cacheNoItems [] =
      some (Except.error RunError.keyError) ∧
    fetchPages envNoItems false 1 0 [Json.null] cacheInvalid [] =
      some (Except.error RunError.jsonDecodeError) ∧
    fetchPages envNoItems true 1 0 [Json.null] emptyCache [] =
      some (Except.error RunError.keyError) ∧
    main gzipId envNoItems false cacheInvalid 1 =
      some (Except.error RunError.jsonDecodeError) :=
  claim_C9 gzipId
    envNoItems cacheNoItems 0 0 [Json.null] [] (Json.obj [])
    RunError.keyError rfl rfl
    envNoItems cacheInvalid 0 0 [Json.null] [] rfl
    envNoItems true emptyCache 0 0 [Json.null] [] (Json.obj [])
    RunError.keyError (Or.inl rfl) rfl rfl rfl
    envNoItems cacheInvalid 0 rfl

/-- C10: a network resolution persists the fetched page to its cache file
before the caller appends its items (the cache handed onward already holds
the entry); hence on a completed run every offset that entered the items
list via a network fetch has a cache file; and a run that broke on a
fetch error at offset `nn` left the cache file state at `nn` untouched —
with cache enabled, no file at all — and logged no call there. -/
theorem claim_C10
    (e1 : Env) (s1 : Bool) (c1 : Cache) (off1 : Nat) (p1 : Json) (cc : Cache)
    (h1 : resolvePage e1 s1 c1 off1 = ResolveResult.page p1 cc true)
    (e2 : Env) (s2 : Bool) (c2 : Cache) (f2 : Nat) (o2 : FetchOutcome)
    (h2 : fetch_all_pages e2 s2 c2 f2 = some (Except.ok o2))
    (e3 : Env) (s3 : Bool) (c3 : Cache) (f3 : Nat) (o3 : FetchOutcome)
    (nn : Nat)
    (h3a : fetch_all_pages e3 s3 c3 f3 = some (Except.ok o3))
    (h3b : o3.aborted = some nn) :
    cc off1 = some (FileData.json p1) ∧
    (∀ k, k ∈ o2.calls → (o2.cache k).isSome) ∧
    (o3.cache nn = c3 nn ∧ nn ∉ o3.calls ∧
      (s3 = false → o3.cache nn = none)) := by
  obtain ⟨hge, hcch, hnone, hcalls⟩ :=
    fetchPages_abort_inv e3 s3 f3 0 [] c3 [] o3 nn h3a h3b
  refine ⟨?_, ?_, hcch, hcalls (List.not_mem_nil nn),
    fun hf => by rw [hcch]; exact hnone hf⟩
  · rcases resolvePage_page_inv e1 s1 c1 off1 p1 cc true h1 with
      ⟨_, _, _, hfalse⟩ | ⟨_, _, hceq, _, _⟩
    · cases hfalse
    · rw [hceq]; exact Function.update_same _ _ _
  · intro k hk
    exact fetchPages_calls_files e2 s2 f2 0 [] c2 [] o2 h2
      (fun j hj => absurd hj (List.not_mem_nil j)) k hk

/-- The outcome of the run of `envServesB` over an empty cache: one page
fetched and cached. -/
def oRunB : FetchOutcome :=
  ⟨[Json.num 2], Function.update emptyCache 0 (some (FileData.json pageB)),
    [0], none⟩

/-- The outcome of the cache-enabled run against the failing `env404`:
nothing accumulated, nothing cached, abort at offset 0. -/
def oRun404 : FetchOutcome := ⟨[], emptyCache, [], some 0⟩

theorem claim_C10_witness :
    (Function.update emptyCache 0 (some (FileData.json pageB))) 0 =
      some (FileData.json pageB) ∧
    (∀ k, k ∈ oRunB.calls → (oRunB.cache k).isSome) ∧
    (oRun404.cache 0 = emptyCache 0 ∧ 0 ∉ oRun404.calls ∧
      (false = false → oRun404.cache 0 = none)) :=
  claim_C10 envServesB true emptyCache 0 pageB
    (Function.update emptyCache 0 (some (FileData.json pageB))) rfl
    envServesB true emptyCache 1 oRunB rfl
    env404 false emptyCache 1 oRun404 0 rfl rfl

end EAFC
